import Mathlib

/-!
Shallow embedding of the `eslmon` repository (a FreeSWITCH ESL monitor client
written in Go).  The inbound byte stream of a connection is modelled as a
`List Char`; reading consumes a prefix of that list.  Go's `(value, error)`
returns are modelled with `Except`/`Option`.  Machine integers that matter
(`Content-Length`) are modelled as `Int`.
-/

deriving instance DecidableEq for Except

namespace Eslmon

/-! ## Frame transport: `internal/conn.go` -/

/-- Model of `bufio.Reader.ReadLine` composed with `Conn.readLine`
(src/internal/conn.go): take the bytes up to the first newline, stripping a
single trailing carriage return when the newline was found; on end of input
with no pending bytes the read fails (`io.EOF`, modelled as `none`).
A final unterminated line is returned as-is (bufio keeps its bytes). -/
def stripCR (l : List Char) : List Char :=
  if l.getLast? = some '\r' then l.dropLast else l

/-- Read one line from the stream: `none` models `io.EOF` on an empty stream;
otherwise returns the line and the unconsumed remainder. -/
def readLine : List Char → Option (List Char × List Char)
  | [] => none
  | c :: cs =>
    let line := (c :: cs).takeWhile (fun x => x ≠ '\n')
    let rest := (c :: cs).dropWhile (fun x => x ≠ '\n')
    match rest with
    | [] => some (line, [])
    | _ :: rest' => some (stripCR line, rest')

theorem readLine_length (input line rest : List Char)
    (h : readLine input = some (line, rest)) : rest.length < input.length := by
  cases input with
  | nil => simp [readLine] at h
  | cons c cs =>
    simp only [readLine] at h
    rcases hd : (c :: cs).dropWhile (fun x => x ≠ '\n') with _ | ⟨x, xs⟩
    · rw [hd] at h
      cases h
      simp
    · rw [hd] at h
      cases h
      have hle : ((c :: cs).dropWhile (fun x => x ≠ '\n')).length ≤ (c :: cs).length := by
        conv_rhs => rw [← List.takeWhile_append_dropWhile (fun x => x ≠ '\n') (c :: cs)]
        rw [List.length_append]
        omega
      rw [hd] at hle
      simp only [List.length_cons] at hle ⊢
      omega

/-- Model of `trimLeft` (src/internal/conn.go): drop leading spaces and tabs. -/
def trimLeft (b : List Char) : List Char :=
  b.dropWhile (fun c => c = ' ' ∨ c = '\t')

/-- Model of the header-line split in `Conn.Read`: `idx := bytes.IndexByte(line, ':')`;
`idx <= 0` (no colon, or colon first) is malformed (`none`); otherwise the key is
the part before the first colon and the value is the left-trimmed remainder. -/
def headerSplit (line : List Char) : Option (List Char × List Char) :=
  let key := line.takeWhile (fun c => c ≠ ':')
  let rest := line.dropWhile (fun c => c ≠ ':')
  match rest with
  | [] => none
  | _ :: value => if key = [] then none else some (key, trimLeft value)

/-- Digits of a decimal number; `none` unless nonempty and all digits
(the digit-string core of `strconv.Atoi`). -/
def digitsVal (cs : List Char) : Option Nat :=
  if cs = [] ∨ cs.any (fun c => ¬ c.isDigit) then none
  else some (cs.foldl (fun acc c => acc * 10 + (c.toNat - '0'.toNat)) 0)

/-- Model of `strconv.Atoi`: optional sign followed by at least one digit
(overflow is not modelled). -/
def atoi (cs : List Char) : Option Int :=
  match cs with
  | '+' :: rest => (digitsVal rest).map Int.ofNat
  | '-' :: rest => (digitsVal rest).map (fun n => -(n : Int))
  | _ => (digitsVal cs).map Int.ofNat

/-- Model of `strings.HasPrefix(s, pre)`, at the character level so that it
evaluates by kernel reduction. -/
def hasPre (s pre : String) : Bool :=
  pre.toList.isPrefixOf s.toList

/-- Drop the first `n` characters of a string (the remainder kept by
`strings.CutPrefix` when the prefix has `n` characters). -/
def dropChars (s : String) (n : Nat) : String :=
  String.mk (s.toList.drop n)

/-- `Response` (src/internal/response.go): one parsed ESL frame. -/
structure Response where
  ContentType : String := ""
  Text : String := ""
  JobUUID : String := ""
  Body : String := ""
deriving Repr, DecidableEq

/-- Errors `Conn.Read` can produce. -/
inductive ReadErr
  | eof
  | malformedHeader (line : String)
  | malformedContentLength (value : String)
  | shortBody
deriving Repr, DecidableEq

/-- The header loop of `Conn.Read` (src/internal/conn.go lines 86-121), with a
fuel argument so the definition is structural; each iteration consumes at least
one character, so any fuel above the input length is enough (see
`readHeadersF_fuel`).  Running out of fuel behaves like end of input. -/
def readHeadersF : Nat → List Char → Response → Int →
    Except ReadErr (Response × Int × List Char)
  | 0, _, _, _ => .error .eof
  | fuel + 1, input, resp, n =>
    match readLine input with
    | none => .error .eof
    | some (line, rest) =>
      if line = [] then
        if resp.ContentType = "" then readHeadersF fuel rest resp n
        else .ok (resp, n, rest)
      else
        match headerSplit line with
        | none => .error (.malformedHeader (String.mk line))
        | some (key, value) =>
          if key = "Content-Type".toList then
            readHeadersF fuel rest { resp with ContentType := String.mk value } n
          else if key = "Reply-Text".toList then
            readHeadersF fuel rest { resp with Text := String.mk value } n
          else if key = "Job-UUID".toList then
            readHeadersF fuel rest { resp with JobUUID := String.mk value } n
          else if key = "Content-Length".toList then
            match atoi value with
            | none => .error (.malformedContentLength (String.mk value))
            | some m => readHeadersF fuel rest resp m
          else readHeadersF fuel rest resp n

theorem readHeadersF_fuel (f1 : Nat) : ∀ (f2 : Nat) (input : List Char)
    (resp : Response) (n : Int), input.length < f1 → input.length < f2 →
    readHeadersF f1 input resp n = readHeadersF f2 input resp n := by
  induction f1 with
  | zero => intro f2 input resp n h1 _; omega
  | succ a ih =>
    intro f2 input resp n h1 h2
    cases f2 with
    | zero => omega
    | succ b =>
      simp only [readHeadersF]
      rcases hr : readLine input with _ | ⟨line, rest⟩
      · rfl
      · have hlen := readLine_length input line rest hr
        have ha : rest.length < a := by omega
        have hb : rest.length < b := by omega
        by_cases hl : line = []
        · simp only [hl, if_pos rfl]
          by_cases hct : resp.ContentType = ""
          · simp only [hct, if_pos rfl]
            exact ih b rest resp n ha hb
          · simp [hct]
        · simp only [if_neg hl]
          rcases hs : headerSplit line with _ | ⟨key, value⟩
          · rfl
          · by_cases h1 : key = "Content-Type".toList
            · simp only [h1, if_pos rfl]; exact ih b rest _ n ha hb
            · simp only [if_neg h1]
              by_cases h2 : key = "Reply-Text".toList
              · simp only [h2, if_pos rfl]; exact ih b rest _ n ha hb
              · simp only [if_neg h2]
                by_cases h3 : key = "Job-UUID".toList
                · simp only [h3, if_pos rfl]; exact ih b rest _ n ha hb
                · simp only [if_neg h3]
                  by_cases h4 : key = "Content-Length".toList
                  · simp only [h4, if_pos rfl]
                    rcases atoi value with _ | m
                    · rfl
                    · exact ih b rest resp m ha hb
                  · simp only [if_neg h4]
                    exact ih b rest resp n ha hb

/-- The header loop of `Conn.Read` on a given stream, starting from the given
partially-filled response and content length (initially the zero response and 0). -/
def readHeaders (input : List Char) (resp : Response) (n : Int) :
    Except ReadErr (Response × Int × List Char) :=
  readHeadersF (input.length + 1) input resp n

/-- Model of `Conn.Read` (src/internal/conn.go): run the header loop from the
empty response; if a positive content length was declared, take exactly that
many bytes as the body (`io.ReadFull`), failing when the stream is shorter. -/
def Conn.Read (input : List Char) : Except ReadErr (Response × List Char) :=
  match readHeaders input {} 0 with
  | .error e => .error e
  | .ok (resp, n, rest) =>
    if 0 < n then
      if rest.length < n.toNat then .error .shortBody
      else .ok ({ resp with Body := String.mk (rest.take n.toNat) }, rest.drop n.toNat)
    else .ok (resp, rest)

/-! ## Response model: `internal/response.go` -/

/-- Content type `command/reply`. -/
def ctCommandReply : String := "command/reply"

/-- Content type `api/response`. -/
def ctAPIResponse : String := "api/response"

/-- Content type `auth/request`. -/
def ctAuth : String := "auth/request"

/-- Content type `text/event-plain`. -/
def ctEventPlain : String := "text/event-plain"

/-- Content type `text/disconnect-notice`. -/
def ctDisconnect : String := "text/disconnect-notice"

/-- Content type `text/rude-rejection`. -/
def ctReject : String := "text/rude-rejection"

/-- Errors `Response.AsErr` can classify a response into: `io.EOF`
(end of stream) or a domain error created with `errors.New(text)`. -/
inductive RespErr
  | eof
  | domain (msg : String)
deriving Repr, DecidableEq

/-- Model of `responseError` (src/internal/response.go): an error carrying the
text after the `-ERR ` marker when the text starts with it, nothing otherwise
(`strings.CutPrefix`; the marker is 5 characters long). -/
def responseError (text : String) : Option RespErr :=
  if hasPre text "-ERR " then some (.domain (dropChars text 5)) else none

/-- Model of `Response.AsErr` (src/internal/response.go). -/
def Response.AsErr (r : Response) : Option RespErr :=
  if r.ContentType = ctDisconnect then some .eof
  else if r.ContentType = ctCommandReply then responseError r.Text
  else if r.ContentType = ctAPIResponse then responseError r.Body
  else none

/-! ## Handshake: `Conn.auth` (`internal/conn.go`) -/

/-- Errors `Conn.auth` can fail with; constructor names follow the Go error
values/messages: `ErrAccessDenied` ("access denied"), the wrapped
"server disconnect: EOF", "unexpected auth request content type: ...",
the wrapped read errors, "unexpected auth response content type: ..." and
`ErrInvalidPassword` ("invalid password"). -/
inductive AuthErr
  | readRequest (e : ReadErr)
  | accessDenied
  | serverDisconnect
  | unexpectedRequestType (ct : String)
  | readResponse (e : ReadErr)
  | unexpectedResponseType (ct : String)
  | invalidPassword
deriving Repr, DecidableEq

/-- Model of `Conn.auth` (src/internal/conn.go lines 200-226).  The connection
state is the inbound stream; the commands written by `Conn.Write`/`Conn.Send`
are collected in the returned list. -/
def Conn.auth (input : List Char) (password : String) :
    Except AuthErr Unit × List String :=
  match Conn.Read input with
  | .error e => (.error (.readRequest e), [])
  | .ok (resp, rest) =>
    if resp.ContentType = ctReject then (.error .accessDenied, [])
    else if resp.ContentType = ctDisconnect then (.error .serverDisconnect, [])
    else if resp.ContentType ≠ ctAuth then
      (.error (.unexpectedRequestType resp.ContentType), [])
    else
      let cmd := "auth " ++ password
      match Conn.Read rest with
      | .error e => (.error (.readResponse e), [cmd])
      | .ok (resp2, _) =>
        if resp2.ContentType ≠ ctCommandReply then
          (.error (.unexpectedResponseType resp2.ContentType), [cmd])
        else if ¬ hasPre resp2.Text "+OK" then (.error .invalidPassword, [cmd])
        else (.ok (), [cmd])

/-! ## Event model: `event.go` -/

/-- `Event` (src/event.go): a mapping from header name to string value,
modelled as an association list with unique keys. -/
abbrev Event := List (String × String)

/-- Model of `Event.Get`: map lookup, absent key gives the empty string. -/
def Event.Get (e : Event) (key : String) : String :=
  match e.find? (fun p => p.1 == key) with
  | some p => p.2
  | none => ""

/-- Header key `"Content-Length"` (src/event.go `contentLengthKey`). -/
def contentLengthKey : String := "Content-Length"

/-- Header key `"Event-Name"`. -/
def eventNameKey : String := "Event-Name"

/-- Header key `"Event-Subclass"`. -/
def eventSubclassKey : String := "Event-Subclass"

/-- Synthetic body key `"_body"`. -/
def bodyKey : String := "_body"

/-- Model of `Event.Name`: the subclass header when nonempty, else the
event-name header. -/
def Event.Name (e : Event) : String :=
  let name := Event.Get e eventSubclassKey
  if name ≠ "" then name else Event.Get e eventNameKey

/-- Model of `Event.ContentType` (src/event.go lines 40-43): as written in the
source it returns `e.Get(contentLengthKey)`. -/
def Event.ContentType (e : Event) : String :=
  Event.Get e contentLengthKey

/-- Model of `Event.Body`: the value stored under the synthetic body key. -/
def Event.Body (e : Event) : String :=
  Event.Get e bodyKey

/-! ## JSON decoding used by `parseEvent` (src/event.go lines 99-107)

`parseEvent` passes the frame body to `json.Unmarshal` with target type
`map[string]string`.  We model the subset of `encoding/json` that such an
unmarshal exercises: optional whitespace, then either `null` (which leaves the
map nil) or a flat object whose member values must be strings, then optional
whitespace and end of input.  String escapes `\" \\ \/ \b \f \n \r \t \uXXXX`
are handled; surrogate `\u` escapes and raw control characters are rejected
(Go is slightly more lenient on lone surrogates, substituting U+FFFD; such
exotic inputs are outside this model).  Duplicate keys follow Go map
semantics: the last member wins. -/

/-- JSON whitespace. -/
def isJsonWS (c : Char) : Bool :=
  c = ' ' || c = '\t' || c = '\n' || c = '\r'

/-- Skip JSON whitespace. -/
def skipWS (s : List Char) : List Char :=
  s.dropWhile isJsonWS

/-- Value of one hexadecimal digit. -/
def hexVal (c : Char) : Option Nat :=
  if '0' ≤ c ∧ c ≤ '9' then some (c.toNat - '0'.toNat)
  else if 'a' ≤ c ∧ c ≤ 'f' then some (c.toNat - 'a'.toNat + 10)
  else if 'A' ≤ c ∧ c ≤ 'F' then some (c.toNat - 'A'.toNat + 10)
  else none

/-- The opening brace character. -/
def lbrace : Char := Char.ofNat 123

/-- The closing brace character. -/
def rbrace : Char := Char.ofNat 125

/-- Parse the body of a JSON string after its opening quote, returning the
decoded characters and the remainder after the closing quote. -/
def parseStringBody : List Char → Option (List Char × List Char)
  | [] => none
  | '"' :: rest => some ([], rest)
  | '\\' :: rest =>
    match rest with
    | [] => none
    | 'u' :: h1 :: h2 :: h3 :: h4 :: rest3 =>
      match hexVal h1, hexVal h2, hexVal h3, hexVal h4 with
      | some a, some b, some c, some d =>
        let code := ((a * 16 + b) * 16 + c) * 16 + d
        if 0xD800 ≤ code ∧ code ≤ 0xDFFF then none
        else (parseStringBody rest3).map (fun p => (Char.ofNat code :: p.1, p.2))
      | _, _, _, _ => none
    | e :: rest2 =>
      if e = '"' then (parseStringBody rest2).map (fun p => ('"' :: p.1, p.2))
      else if e = '\\' then (parseStringBody rest2).map (fun p => ('\\' :: p.1, p.2))
      else if e = '/' then (parseStringBody rest2).map (fun p => ('/' :: p.1, p.2))
      else if e = 'b' then (parseStringBody rest2).map (fun p => ('\x08' :: p.1, p.2))
      else if e = 'f' then (parseStringBody rest2).map (fun p => ('\x0c' :: p.1, p.2))
      else if e = 'n' then (parseStringBody rest2).map (fun p => ('\n' :: p.1, p.2))
      else if e = 'r' then (parseStringBody rest2).map (fun p => ('\r' :: p.1, p.2))
      else if e = 't' then (parseStringBody rest2).map (fun p => ('\t' :: p.1, p.2))
      else none
  | c :: rest =>
    if c.toNat < 0x20 then none
    else (parseStringBody rest).map (fun p => (c :: p.1, p.2))

/-- Insert a key/value pair with Go map semantics: replace the binding when
the key is already present, append otherwise. -/
def insertKV : List (String × String) → String → String → List (String × String)
  | [], k, v => [(k, v)]
  | (k', v') :: rest, k, v =>
    if k' = k then (k, v) :: rest else (k', v') :: insertKV rest k v

/-- Parse the members of a JSON object (called just after the opening brace of
a nonempty object, or after a comma); fuelled so the definition is structural,
with fuel at least the remaining input length being enough. -/
def parseMembers : Nat → List (String × String) → List Char →
    Option (List (String × String) × List Char)
  | 0, _, _ => none
  | fuel + 1, acc, s =>
    match skipWS s with
    | '"' :: r0 =>
      match parseStringBody r0 with
      | none => none
      | some (key, r1) =>
        match skipWS r1 with
        | ':' :: r2 =>
          match skipWS r2 with
          | '"' :: r3 =>
            match parseStringBody r3 with
            | none => none
            | some (value, r4) =>
              let acc' := insertKV acc (String.mk key) (String.mk value)
              match skipWS r4 with
              | c :: r5 =>
                if c = ',' then parseMembers fuel acc' r5
                else if c = rbrace then some (acc', r5)
                else none
              | [] => none
          | _ => none
        | _ => none
    | _ => none

/-- Model of `json.Unmarshal(body, &m)` for `m : map[string]string`: `none` is
a decode error; `some members` is a successful decode (`null` yields the nil
map, modelled as `[]`). -/
def jsonUnmarshalObj (body : String) : Option (List (String × String)) :=
  match skipWS body.toList with
  | 'n' :: rest =>
    if rest.take 3 = ['u', 'l', 'l'] ∧ skipWS (rest.drop 3) = [] then some []
    else none
  | c :: rest =>
    if c = lbrace then
      match skipWS rest with
      | c2 :: r2 =>
        if c2 = rbrace then if skipWS r2 = [] then some [] else none
        else
          match parseMembers (rest.length + 1) [] rest with
          | none => none
          | some (m, r3) => if skipWS r3 = [] then some m else none
      | [] => none
    else none
  | [] => none

/-- Model of `parseEvent` (src/event.go lines 99-107): unmarshal the body as a
flat JSON object; a decode error yields no event (`none`), and nothing else is
added to the decoded mapping. -/
def parseEvent (body : String) : Option Event :=
  jsonUnmarshalObj body

/-! ## Subscriber: `subscriber.go` -/

/-- Model of `strings.EqualFold` restricted to ASCII case folding, which is
exact for the literal `"all"` it is compared against in `newSubscriber`. -/
def equalFold (a b : String) : Bool :=
  a.toList.map Char.toLower == b.toList.map Char.toLower

/-- Model of `strings.CutPrefix(name, "CUSTOM ")` keeping only the remainder
(the boolean is discarded in `newSubscriber`); `"CUSTOM "` is 7 characters. -/
def trimCustom (name : String) : String :=
  if hasPre name "CUSTOM " then dropChars name 7 else name

/-- The wildcard test applied to each name in `newSubscriber`
(src/subscriber.go line 28): empty name, `"*"`, or case-insensitive `"all"`. -/
def isWildcardName (n : String) : Bool :=
  n == "" || n == "*" || equalFold n "all"

/-- Set insertion on the list model of a Go `map[string]struct\x7b\x7d`:
keep the list unchanged when the name is present, append it otherwise. -/
def insertName (acc : List String) (n : String) : List String :=
  if n ∈ acc then acc else acc ++ [n]

/-- Insert every name of a list (`maps.Copy` / repeated insertion). -/
def insertAll (acc : List String) (ns : List String) : List String :=
  ns.foldl insertName acc

/-- `subscriber` (src/subscriber.go): the stored filter set (empty list models
the nil map, i.e. the wildcard) and the send channel, identified by a number. -/
structure Subscriber where
  Names : List String
  Send : Nat
deriving Repr, DecidableEq

/-- The loop of `newSubscriber` (src/subscriber.go lines 27-34): scan the
names; a wildcard name aborts to the all-events subscriber (`none`), otherwise
each name is inserted after trimming the custom marker. -/
def newSubscriberLoop : List String → List String → Option (List String)
  | [], acc => some acc
  | n :: rest, acc =>
    if isWildcardName n then none
    else newSubscriberLoop rest (insertName acc (trimCustom n))

/-- Model of `newSubscriber` (src/subscriber.go lines 15-37); the nil-channel
panic is outside the model (channels are plain identifiers here). -/
def newSubscriber (send : Nat) (events : List String) : Subscriber :=
  if events = [] then ⟨[], send⟩
  else
    match newSubscriberLoop events [] with
    | none => ⟨[], send⟩
    | some names => ⟨names, send⟩

/-- Model of `subscriber.Handle` (src/subscriber.go lines 43-51): the boolean
result, paired with the list of events sent on the subscriber's channel. -/
def Subscriber.Handle (s : Subscriber) (e : Event) : Bool × List Event :=
  if Event.Name e ∈ s.Names ∨ s.Names = [] then (true, [e]) else (false, [])

/-! ## Monitor: `monitor.go` -/

/-- The predefined event-name vocabulary `eventNames` (src/event.go
lines 110-204; `"CUSTOM"` is commented out in the source). -/
def eventNames : List String :=
  ["CLONE", "CHANNEL_CREATE", "CHANNEL_DESTROY", "CHANNEL_STATE",
   "CHANNEL_CALLSTATE", "CHANNEL_ANSWER", "CHANNEL_HANGUP",
   "CHANNEL_HANGUP_COMPLETE", "CHANNEL_EXECUTE", "CHANNEL_EXECUTE_COMPLETE",
   "CHANNEL_HOLD", "CHANNEL_UNHOLD", "CHANNEL_BRIDGE", "CHANNEL_UNBRIDGE",
   "CHANNEL_PROGRESS", "CHANNEL_PROGRESS_MEDIA", "CHANNEL_OUTGOING",
   "CHANNEL_PARK", "CHANNEL_UNPARK", "CHANNEL_APPLICATION",
   "CHANNEL_ORIGINATE", "CHANNEL_UUID", "API", "LOG", "INBOUND_CHAN",
   "OUTBOUND_CHAN", "STARTUP", "SHUTDOWN", "PUBLISH", "UNPUBLISH", "TALK",
   "NOTALK", "SESSION_CRASH", "MODULE_LOAD", "MODULE_UNLOAD", "DTMF",
   "MESSAGE", "PRESENCE_IN", "NOTIFY_IN", "PRESENCE_OUT", "PRESENCE_PROBE",
   "MESSAGE_WAITING", "MESSAGE_QUERY", "ROSTER", "CODEC", "BACKGROUND_JOB",
   "DETECTED_SPEECH", "DETECTED_TONE", "PRIVATE_COMMAND", "HEARTBEAT",
   "TRAP", "ADD_SCHEDULE", "DEL_SCHEDULE", "EXE_SCHEDULE", "RE_SCHEDULE",
   "RELOADXML", "NOTIFY", "PHONE_FEATURE", "PHONE_FEATURE_SUBSCRIBE",
   "SEND_MESSAGE", "RECV_MESSAGE", "REQUEST_PARAMS", "CHANNEL_DATA",
   "GENERAL", "COMMAND", "SESSION_HEARTBEAT", "CLIENT_DISCONNECTED",
   "SERVER_DISCONNECTED", "SEND_INFO", "RECV_INFO", "RECV_RTCP_MESSAGE",
   "SEND_RTCP_MESSAGE", "CALL_SECURE", "NAT", "RECORD_START", "RECORD_STOP",
   "PLAYBACK_START", "PLAYBACK_STOP", "CALL_UPDATE", "FAILURE",
   "SOCKET_DATA", "MEDIA_BUG_START", "MEDIA_BUG_STOP",
   "CONFERENCE_DATA_QUERY", "CONFERENCE_DATA", "CALL_SETUP_REQ",
   "CALL_SETUP_RESULT", "CALL_DETAIL", "DEVICE_STATE", "TEXT",
   "SHUTDOWN_REQUESTED"]

/-- The base subscription command `cmdSubscribe` (src/monitor.go line 146). -/
def cmdSubscribe : String := "event plain"

/-- The wildcard/union scan of `Monitor.subscribe` (src/monitor.go
lines 152-158): `none` models the early `return cmdSubscribe + " ALL"` taken
when some subscriber's filter set is empty; otherwise the accumulated union. -/
def collectEvents : List Subscriber → List String → Option (List String)
  | [], acc => some acc
  | s :: rest, acc =>
    if s.Names = [] then none
    else collectEvents rest (insertAll acc s.Names)

/-- The command-building fold of `Monitor.subscribe` (src/monitor.go
lines 160-183): names in the vocabulary go to the base command, the others to
the custom suffix, which (the base being nonempty) is appended after one
`CUSTOM` marker when nonempty.  The Go source iterates a map in unspecified
order; the model fixes the order of the given list. -/
def buildStep (p : String × String) (name : String) : String × String :=
  if eventNames.contains name then (p.1 ++ " " ++ name, p.2)
  else (p.1, p.2 ++ " " ++ name)

/-- The final assembly of `Monitor.subscribe`: run the fold, then append the
custom suffix after one `CUSTOM` marker when it is nonempty (the base part is
never empty, as it starts from `cmdSubscribe`). -/
def buildCmd (events : List String) : String :=
  let p := events.foldl buildStep (cmdSubscribe, "")
  if p.2 ≠ "" then p.1 ++ " CUSTOM" ++ p.2 else p.1

/-- Model of `Monitor.subscribe` (src/monitor.go lines 144-184). -/
def Monitor.subscribe (subscribers : List Subscriber) : String :=
  match collectEvents subscribers [] with
  | none => cmdSubscribe ++ " ALL"
  | some events => buildCmd events

/-- The union of all subscribers' filter names, in the scan order of
`Monitor.subscribe` (Go iterates the union map in unspecified order; this
model fixes first-insertion order). -/
def unionNames (subscribers : List Subscriber) : List String :=
  subscribers.foldl (fun acc s => insertAll acc s.Names) []

/-- Space-prefixed concatenation of a list of names, used to state what the
command builder appends for each partition. -/
def spaceJoin : List String → String
  | [] => ""
  | n :: rest => " " ++ n ++ spaceJoin rest

/-! ## Run loop: `Monitor.Run` (`monitor.go` lines 99-123) -/

/-- Terminal results of the streaming loop of `Monitor.Run`: the wrapped
context cause (`done: ...`), the wrapped raw read error (`read: ...`), the
event decode failure (`event parse: ...`) and the disconnect notice
(`server closed: EOF`). -/
inductive RunErr
  | done (cause : String)
  | readFail (e : ReadErr)
  | eventParse
  | serverClosed
deriving Repr, DecidableEq

/-- The streaming loop of `Monitor.Run` with fuel (each iteration consumes
input, so fuel above the input length changes nothing): read one frame; on
read failure return the cancellation cause when `context.Cause` is non-nil
(the `cause` parameter models its value at that moment) and the raw read
error otherwise; an event-plain frame is decoded and handed to every
subscriber in order (the per-subscriber `Handle` booleans of each frame are
collected); a disconnect notice ends the loop; other frames are skipped. -/
def runLoopF (subscribers : List Subscriber) (cause : Option String) :
    Nat → List Char → RunErr × List (List Bool)
  | 0, _ => (.readFail .eof, [])
  | fuel + 1, input =>
    match Conn.Read input with
    | .error e =>
      match cause with
      | some c => (.done c, [])
      | none => (.readFail e, [])
    | .ok (resp, rest) =>
      if resp.ContentType = ctEventPlain then
        match parseEvent resp.Body with
        | none => (.eventParse, [])
        | some ev =>
          let handled := subscribers.map (fun s => (Subscriber.Handle s ev).1)
          let r := runLoopF subscribers cause fuel rest
          (r.1, handled :: r.2)
      else if resp.ContentType = ctDisconnect then (.serverClosed, [])
      else runLoopF subscribers cause fuel rest

/-- The streaming loop of `Monitor.Run` on a given inbound stream. -/
def Monitor.runLoop (subscribers : List Subscriber) (cause : Option String)
    (input : List Char) : RunErr × List (List Bool) :=
  runLoopF subscribers cause (input.length + 1) input

/-! ## Helper lemmas -/

/-- One-step unfolding of the header loop, with the recursive occurrences
expressed through `readHeaders` itself (the fuel argument is irrelevant by
`readHeadersF_fuel`). -/
theorem readHeaders_eq (input : List Char) (resp : Response) (n : Int) :
    readHeaders input resp n =
      match readLine input with
      | none => .error .eof
      | some (line, rest) =>
        if line = [] then
          if resp.ContentType = "" then readHeaders rest resp n
          else .ok (resp, n, rest)
        else
          match headerSplit line with
          | none => .error (.malformedHeader (String.mk line))
          | some (key, value) =>
            if key = "Content-Type".toList then
              readHeaders rest { resp with ContentType := String.mk value } n
            else if key = "Reply-Text".toList then
              readHeaders rest { resp with Text := String.mk value } n
            else if key = "Job-UUID".toList then
              readHeaders rest { resp with JobUUID := String.mk value } n
            else if key = "Content-Length".toList then
              match atoi value with
              | none => .error (.malformedContentLength (String.mk value))
              | some m => readHeaders rest resp m
            else readHeaders rest resp n := by
  show readHeadersF (input.length + 1) input resp n = _
  simp only [readHeadersF]
  rcases hr : readLine input with _ | ⟨line, rest⟩
  · rfl
  · have hlen := readLine_length input line rest hr
    have hfuel : ∀ (r : Response) (m : Int),
        readHeadersF input.length rest r m = readHeaders rest r m := by
      intro r m
      exact readHeadersF_fuel input.length (rest.length + 1) rest r m (by omega) (by omega)
    simp only [hfuel]

/-! ## Claim C10 -/

/-- C10: for every Event `e`, the accessor `ContentType` returns the value
stored under the `"Content-Length"` header key (`e.Get "Content-Length"`),
not any content-type header, and for an event with no `"Content-Length"`
key it returns the empty string. -/
theorem Event.contentType_reads_content_length (e : Event) :
    Event.ContentType e = Event.Get e "Content-Length" ∧
    (e.find? (fun p => p.1 == "Content-Length") = none →
      Event.ContentType e = "") := by
  constructor
  · rfl
  · intro h
    simp [Event.ContentType, Event.Get, contentLengthKey, h]

/-- Witness for C10 at concrete events: an event carrying only a
`Content-Type` header has accessor value `""`; one carrying
`Content-Length: 756` has accessor value `"756"` regardless of its
`Content-Type` header. -/
theorem Event.contentType_reads_content_length_witness :
    Event.ContentType [("Content-Type", "text/event-plain")] = "" ∧
    Event.ContentType [("Content-Type", "text/event-plain"),
      ("Content-Length", "756")] = "756" := by
  constructor
  · exact (Event.contentType_reads_content_length
      [("Content-Type", "text/event-plain")]).2 (by decide)
  · rw [(Event.contentType_reads_content_length [("Content-Type", "text/event-plain"),
      ("Content-Length", "756")]).1]
    decide

/-! ## Claim C7 -/

/-- C7: `AsErr` classifies a response: a disconnect-notice content type gives
the end-of-stream error; a command-reply whose `Text` starts with `"-ERR "`
(respectively an api-response whose `Body` starts with `"-ERR "`) gives a
domain error carrying the remainder after the 5-character prefix; every other
case gives no error. -/
theorem Response.asErr_classification (r : Response) :
    (r.ContentType = ctDisconnect → Response.AsErr r = some .eof) ∧
    (r.ContentType = ctCommandReply →
      (hasPre r.Text "-ERR " = true →
        Response.AsErr r = some (.domain (dropChars r.Text 5))) ∧
      (hasPre r.Text "-ERR " = false → Response.AsErr r = none)) ∧
    (r.ContentType = ctAPIResponse →
      (hasPre r.Body "-ERR " = true →
        Response.AsErr r = some (.domain (dropChars r.Body 5))) ∧
      (hasPre r.Body "-ERR " = false → Response.AsErr r = none)) ∧
    (r.ContentType ≠ ctDisconnect → r.ContentType ≠ ctCommandReply →
      r.ContentType ≠ ctAPIResponse → Response.AsErr r = none) := by
  have hd1 : ctCommandReply ≠ ctDisconnect := by decide
  have hd2 : ctAPIResponse ≠ ctDisconnect := by decide
  have hd3 : ctAPIResponse ≠ ctCommandReply := by decide
  refine ⟨?_, ?_, ?_, ?_⟩
  · intro h
    simp [Response.AsErr, h]
  · intro h
    constructor
    · intro hp
      simp [Response.AsErr, h, hd1, responseError, hp]
    · intro hp
      simp [Response.AsErr, h, hd1, responseError, hp]
  · intro h
    constructor
    · intro hp
      simp [Response.AsErr, h, hd2, hd3, responseError, hp]
    · intro hp
      simp [Response.AsErr, h, hd2, hd3, responseError, hp]
  · intro h1 h2 h3
    simp [Response.AsErr, h1, h2, h3]

/-- Witness for C7: the spec's example — parsing the command-reply frame with
`Reply-Text: -ERR invalid` and classifying it yields the message exactly
`"invalid"`; an `+OK` command-reply yields no error; a disconnect-notice
yields the end-of-stream error. -/
theorem Response.asErr_classification_witness :
    Response.AsErr { ContentType := "command/reply", Text := "-ERR invalid" } =
      some (.domain "invalid") ∧
    Response.AsErr { ContentType := "command/reply", Text := "+OK" } = none ∧
    Response.AsErr { ContentType := "text/disconnect-notice" } = some .eof := by
  refine ⟨?_, ?_, ?_⟩
  · have h := ((Response.asErr_classification
      { ContentType := "command/reply", Text := "-ERR invalid" }).2.1
      (by decide)).1 (by decide)
    rw [h]; decide
  · exact ((Response.asErr_classification
      { ContentType := "command/reply", Text := "+OK" }).2.1 (by decide)).2 (by decide)
  · exact (Response.asErr_classification
      { ContentType := "text/disconnect-notice" }).1 (by decide)

/-! ## Claim C5 -/

/-- C5: in the streaming loop, whenever a frame read fails, the loop returns
the recorded cancellation cause when the cancellation signal has fired
(`context.Cause` non-nil), and the raw read error only when it has not. -/
theorem Monitor.runLoop_read_failure (subscribers : List Subscriber)
    (cause : Option String) (input : List Char) (e : ReadErr)
    (h : Conn.Read input = .error e) :
    (∀ c, cause = some c →
      Monitor.runLoop subscribers cause input = (.done c, [])) ∧
    (cause = none →
      Monitor.runLoop subscribers cause input = (.readFail e, [])) := by
  constructor
  · intro c hc
    show runLoopF subscribers cause (input.length + 1) input = _
    simp only [runLoopF]
    rw [h, hc]
  · intro hc
    show runLoopF subscribers cause (input.length + 1) input = _
    simp only [runLoopF]
    rw [h, hc]

/-- Witness for C5: on an exhausted stream (read fails with EOF), the loop
returns the cancellation cause when one fired and the raw read error
otherwise. -/
theorem Monitor.runLoop_read_failure_witness :
    Monitor.runLoop [] (some "context canceled") [] =
      (.done "context canceled", []) ∧
    Monitor.runLoop [] none [] = (.readFail .eof, []) := by
  have h : Conn.Read ([] : List Char) = .error .eof := by decide
  exact ⟨(Monitor.runLoop_read_failure [] (some "context canceled") [] .eof h).1
      "context canceled" rfl,
    (Monitor.runLoop_read_failure [] none [] .eof h).2 rfl⟩

/-! ## Claim C2 -/

/-- C2: the handshake is a four-state, non-retried sequence.  If the first
frame read is a rude-rejection it fails with access denied; a
disconnect-notice fails with the server-disconnected error; any other content
type except auth-request fails naming the unexpected type; on auth-request
the command `auth <secret>` is written, and the reply fails with a
protocol-mismatch error when its content type is not command-reply, with
invalid password when its text does not begin with `+OK`, and succeeds
otherwise. -/
theorem Conn.auth_state_machine (input : List Char) (p : String)
    (resp : Response) (rest : List Char)
    (h : Conn.Read input = .ok (resp, rest)) :
    (resp.ContentType = ctReject →
      Conn.auth input p = (.error .accessDenied, [])) ∧
    (resp.ContentType = ctDisconnect →
      Conn.auth input p = (.error .serverDisconnect, [])) ∧
    (resp.ContentType ≠ ctReject → resp.ContentType ≠ ctDisconnect →
      resp.ContentType ≠ ctAuth →
      Conn.auth input p =
        (.error (.unexpectedRequestType resp.ContentType), [])) ∧
    (resp.ContentType = ctAuth →
      (∀ e, Conn.Read rest = .error e →
        Conn.auth input p = (.error (.readResponse e), ["auth " ++ p])) ∧
      (∀ resp2 rest2, Conn.Read rest = .ok (resp2, rest2) →
        (resp2.ContentType ≠ ctCommandReply →
          Conn.auth input p =
            (.error (.unexpectedResponseType resp2.ContentType),
              ["auth " ++ p])) ∧
        (resp2.ContentType = ctCommandReply → hasPre resp2.Text "+OK" = false →
          Conn.auth input p = (.error .invalidPassword, ["auth " ++ p])) ∧
        (resp2.ContentType = ctCommandReply → hasPre resp2.Text "+OK" = true →
          Conn.auth input p = (.ok (), ["auth " ++ p])))) := by
  have hd1 : ctDisconnect ≠ ctReject := by decide
  have hd2 : ctAuth ≠ ctReject := by decide
  have hd3 : ctAuth ≠ ctDisconnect := by decide
  refine ⟨?_, ?_, ?_, ?_⟩
  · intro hct
    simp [Conn.auth, h, hct]
  · intro hct
    simp [Conn.auth, h, hct, hd1]
  · intro h1 h2 h3
    simp [Conn.auth, h, h1, h2, h3]
  · intro hct
    constructor
    · intro e he
      simp [Conn.auth, h, he, hct, hd2, hd3]
    · intro resp2 rest2 h2
      refine ⟨?_, ?_, ?_⟩
      · intro hne
        simp [Conn.auth, h, h2, hct, hd2, hd3, hne]
      · intro heq hok
        simp [Conn.auth, h, h2, hct, hd2, hd3, heq, hok]
      · intro heq hok
        simp [Conn.auth, h, h2, hct, hd2, hd3, heq, hok]

/-- Witness for C2: a full successful handshake on a concrete stream (an
auth-request frame followed by a `+OK` command-reply) writes `auth ClueCon`
and succeeds; and a rude-rejection first frame yields access denied. -/
theorem Conn.auth_state_machine_witness :
    Conn.auth
      "Content-Type: auth/request\n\nContent-Type: command/reply\nReply-Text: +OK accepted\n\n".toList
      "ClueCon" = (.ok (), ["auth ClueCon"]) ∧
    Conn.auth "Content-Type: text/rude-rejection\n\n".toList "ClueCon" =
      (.error .accessDenied, []) := by
  constructor
  · have h : Conn.Read
        "Content-Type: auth/request\n\nContent-Type: command/reply\nReply-Text: +OK accepted\n\n".toList =
        .ok ({ ContentType := "auth/request" },
          "Content-Type: command/reply\nReply-Text: +OK accepted\n\n".toList) := by
      decide
    have h2 : Conn.Read
        "Content-Type: command/reply\nReply-Text: +OK accepted\n\n".toList =
        .ok ({ ContentType := "command/reply", Text := "+OK accepted" }, []) := by
      decide
    exact (((Conn.auth_state_machine _ "ClueCon" _ _ h).2.2.2 (by decide)).2 _ _
      h2).2.2 (by decide) (by decide)
  · have h : Conn.Read "Content-Type: text/rude-rejection\n\n".toList =
        .ok ({ ContentType := "text/rude-rejection" }, []) := by decide
    exact (Conn.auth_state_machine _ "ClueCon" _ _ h).1 (by decide)

/-! ## Claim C6 -/

/-- C6: for every frame whose header block declares a positive content length
`n`, `Conn.Read` returns a response whose body is exactly the next `n`
characters of the stream (so its length is exactly `n`) when the stream is
long enough, and fails — never returning a truncated body — when the stream
ends before `n` characters. -/
theorem Conn.read_body_exact (input : List Char) (resp : Response) (n : Int)
    (rest : List Char) (h : readHeaders input {} 0 = .ok (resp, n, rest))
    (hn : 0 < n) :
    (n.toNat ≤ rest.length →
      Conn.Read input =
        .ok ({ resp with Body := String.mk (rest.take n.toNat) },
          rest.drop n.toNat) ∧
      (String.mk (rest.take n.toNat)).length = n.toNat) ∧
    (rest.length < n.toNat → Conn.Read input = .error .shortBody) := by
  constructor
  · intro hle
    constructor
    · simp only [Conn.Read, h]
      rw [if_pos hn, if_neg (by omega)]
    · show (rest.take n.toNat).length = n.toNat
      rw [List.length_take]
      omega
  · intro hlt
    simp only [Conn.Read, h]
    rw [if_pos hn, if_pos hlt]

/-- Witness for C6: a frame declaring `Content-Length: 5` followed by exactly
five body characters yields that five-character body (with the remainder
preserved), and the same frame with the stream ending after three characters
fails instead of returning a truncated body. -/
theorem Conn.read_body_exact_witness :
    Conn.Read "Content-Type: api/response\nContent-Length: 5\n\nhelloEXTRA".toList =
      .ok ({ ContentType := "api/response", Body := "hello" }, "EXTRA".toList) ∧
    ("hello" : String).length = 5 ∧
    Conn.Read "Content-Type: api/response\nContent-Length: 5\n\nhel".toList =
      .error .shortBody := by
  have h1 : readHeaders
      "Content-Type: api/response\nContent-Length: 5\n\nhelloEXTRA".toList {} 0 =
      .ok ({ ContentType := "api/response" }, 5, "helloEXTRA".toList) := by decide
  have h2 : readHeaders
      "Content-Type: api/response\nContent-Length: 5\n\nhel".toList {} 0 =
      .ok ({ ContentType := "api/response" }, 5, "hel".toList) := by decide
  have w1 := (Conn.read_body_exact _ _ _ _ h1 (by decide)).1 (by decide)
  have w2 := (Conn.read_body_exact _ _ _ _ h2 (by decide)).2 (by decide)
  refine ⟨?_, ?_, w2⟩
  · rw [w1.1]; decide
  · have := w1.2
    decide

/-! ## Claim C8 -/

/-- C8: a non-blank header line without a colon fails the split, and the
header loop then fails with a malformed-header error (no response is
returned); a line with a colon after a nonempty name splits into the name and
the left-trimmed value, and a recognized header (shown for `Content-Type`)
stores the trimmed value. -/
theorem Conn.read_malformed_header :
    (∀ line : List Char, line ≠ [] → ':' ∉ line → headerSplit line = none) ∧
    (∀ (input : List Char) (resp : Response) (n : Int) (line rest : List Char),
      readLine input = some (line, rest) → line ≠ [] → headerSplit line = none →
      readHeaders input resp n = .error (.malformedHeader (String.mk line))) ∧
    (∀ key value : List Char, key ≠ [] → ':' ∉ key →
      headerSplit (key ++ ':' :: value) = some (key, trimLeft value)) ∧
    (∀ (input : List Char) (resp : Response) (n : Int) (value rest : List Char),
      readLine input = some ("Content-Type".toList ++ ':' :: value, rest) →
      readHeaders input resp n =
        readHeaders rest { resp with ContentType := String.mk (trimLeft value) }
          n) := by
  have hsplit : ∀ key value : List Char, key ≠ [] → ':' ∉ key →
      headerSplit (key ++ ':' :: value) = some (key, trimLeft value) := by
    intro key value hne hnc
    have hall : ∀ c ∈ key, decide (c ≠ ':') = true := fun c hc =>
      decide_eq_true (fun hcc => hnc (hcc ▸ hc))
    have ht : (key ++ ':' :: value).takeWhile (fun c => c ≠ ':') = key := by
      rw [List.takeWhile_append_of_pos hall]
      simp [List.takeWhile_cons]
    have hd : (key ++ ':' :: value).dropWhile (fun c => c ≠ ':') = ':' :: value := by
      rw [List.dropWhile_append_of_pos hall]
      simp [List.dropWhile_cons]
    simp only [headerSplit, ht, hd]
    rw [if_neg hne]
  refine ⟨?_, ?_, hsplit, ?_⟩
  · intro line hne hnc
    have hd : line.dropWhile (fun c => c ≠ ':') = [] := by
      rw [List.dropWhile_eq_nil_iff]
      exact fun c hc => decide_eq_true (fun hcc => hnc (hcc ▸ hc))
    simp only [headerSplit, hd]
  · intro input resp n line rest h hne hnone
    rw [readHeaders_eq]
    simp only [h]
    rw [if_neg hne]
    simp only [hnone]
  · intro input resp n value rest h
    have hkey : ("Content-Type".toList : List Char) ≠ [] := by decide
    have hnc : ':' ∉ ("Content-Type".toList : List Char) := by decide
    have hline : ("Content-Type".toList ++ ':' :: value : List Char) ≠ [] := by
      simp
    rw [readHeaders_eq]
    simp only [h]
    rw [if_neg hline]
    simp only [hsplit "Content-Type".toList value hkey hnc]
    simp

/-- Witness for C8: the line `garbage` has no colon and makes the header loop
fail with the malformed-header error; the line `Content-Type:   api/response`
stores the value with its leading whitespace trimmed. -/
theorem Conn.read_malformed_header_witness :
    headerSplit "garbage".toList = none ∧
    readHeaders "garbage\n\n".toList {} 0 =
      .error (.malformedHeader "garbage") ∧
    headerSplit "Content-Type:   api/response".toList =
      some ("Content-Type".toList, "api/response".toList) ∧
    readHeaders "Content-Type:   api/response\n\n".toList {} 0 =
      readHeaders "\n".toList { ContentType := "api/response" } 0 := by
  refine ⟨?_, ?_, ?_, ?_⟩
  · exact Conn.read_malformed_header.1 "garbage".toList (by decide) (by decide)
  · exact Conn.read_malformed_header.2.1 "garbage\n\n".toList {} 0
      "garbage".toList "\n".toList (by decide) (by decide)
      (Conn.read_malformed_header.1 "garbage".toList (by decide) (by decide))
  · have h := Conn.read_malformed_header.2.2.1 "Content-Type".toList
      "   api/response".toList (by decide) (by decide)
    rw [show ("Content-Type".toList ++ ':' :: "   api/response".toList : List Char) =
      "Content-Type:   api/response".toList by decide] at h
    rw [h]
    decide
  · have h := Conn.read_malformed_header.2.2.2 "Content-Type:   api/response\n\n".toList
      {} 0 "   api/response".toList "\n".toList (by decide)
    rw [h]
    decide

/-! ## Claim C1 (corrected) -/

/-- C1 as stated is false: a frame consisting of the single header line
`Reply-Text: +OK` followed by a blank line is not returned as a complete
response — the blank line is still skipped because no `Content-Type` header
has been seen, so the read runs past it (failing with EOF on this stream, and
merging a following frame's headers on a longer stream). -/
theorem Conn.read_blank_after_reply_text_cex :
    Conn.Read "Reply-Text: +OK\n\n".toList = .error .eof ∧
    Conn.Read "Reply-Text: +OK\n\nContent-Type: command/reply\n\n".toList =
      .ok ({ ContentType := "command/reply", Text := "+OK" }, []) := by
  decide

/-- C1 amended: the header loop ignores a blank line as long as no
`Content-Type` header has been stored (even when other headers such as
`Reply-Text` have been seen), and a blank line arriving once the stored
`Content-Type` is nonempty terminates the header block. -/
theorem readHeaders_blank_line (input : List Char) (resp : Response) (n : Int)
    (rest : List Char) (h : readLine input = some ([], rest)) :
    (resp.ContentType = "" → readHeaders input resp n = readHeaders rest resp n) ∧
    (resp.ContentType ≠ "" → readHeaders input resp n = .ok (resp, n, rest)) := by
  constructor
  · intro hct
    rw [readHeaders_eq]
    simp only [h]
    simp [hct]
  · intro hct
    rw [readHeaders_eq]
    simp only [h]
    simp [hct]

/-- Witness for C1 (amended): a blank line is skipped when no content type is
stored yet, and terminates the header block when one is. -/
theorem readHeaders_blank_line_witness :
    readHeaders "\nNEXT".toList {} 0 = readHeaders "NEXT".toList {} 0 ∧
    readHeaders "\nNEXT".toList { ContentType := "command/reply" } 0 =
      .ok ({ ContentType := "command/reply" }, 0, "NEXT".toList) := by
  constructor
  · exact (readHeaders_blank_line "\nNEXT".toList {} 0 "NEXT".toList
      (by decide)).1 (by decide)
  · exact (readHeaders_blank_line "\nNEXT".toList { ContentType := "command/reply" }
      0 "NEXT".toList (by decide)).2 (by decide)

/-! ## Claim C3 (corrected): subscriber filters -/

theorem mem_insertName (acc : List String) (n x : String) :
    x ∈ insertName acc n ↔ x ∈ acc ∨ x = n := by
  unfold insertName
  by_cases h : n ∈ acc
  · rw [if_pos h]
    constructor
    · exact Or.inl
    · rintro (hx | hx)
      · exact hx
      · exact hx ▸ h
  · rw [if_neg h]
    simp

theorem mem_insertAll (l : List String) : ∀ (acc : List String) (x : String),
    x ∈ insertAll acc l ↔ x ∈ acc ∨ x ∈ l := by
  induction l with
  | nil => intro acc x; simp [insertAll]
  | cons y ys ih =>
    intro acc x
    show x ∈ insertAll (insertName acc y) ys ↔ _
    rw [ih (insertName acc y) x, mem_insertName]
    simp only [List.mem_cons]
    tauto

theorem insertName_ne_nil (acc : List String) (n : String) :
    insertName acc n ≠ [] := by
  unfold insertName
  by_cases h : n ∈ acc
  · rw [if_pos h]
    intro hnil
    rw [hnil] at h
    exact absurd h (List.not_mem_nil n)
  · rw [if_neg h]
    simp

theorem insertAll_cons_ne_nil (acc : List String) (y : String) (ys : List String) :
    insertAll acc (y :: ys) ≠ [] := by
  induction ys generalizing acc y with
  | nil => exact insertName_ne_nil acc y
  | cons z zs ih => exact ih (insertName acc y) z

theorem newSubscriberLoop_wildcard (events : List String) :
    ∀ acc, (∃ n ∈ events, isWildcardName n = true) →
      newSubscriberLoop events acc = none := by
  induction events with
  | nil => intro acc h; simp at h
  | cons y ys ih =>
    intro acc ⟨n, hn, hw⟩
    show (if isWildcardName y then none
      else newSubscriberLoop ys (insertName acc (trimCustom y))) = none
    by_cases hy : isWildcardName y = true
    · rw [if_pos hy]
    · rw [if_neg (by simp [hy])]
      rcases List.mem_cons.mp hn with hny | hny
      · rw [hny] at hw; exact absurd hw hy
      · exact ih _ ⟨n, hny, hw⟩

theorem newSubscriberLoop_clean (events : List String) :
    ∀ acc, (∀ n ∈ events, isWildcardName n = false) →
      newSubscriberLoop events acc =
        some (insertAll acc (events.map trimCustom)) := by
  induction events with
  | nil => intro acc _; rfl
  | cons y ys ih =>
    intro acc h
    show (if isWildcardName y then none
      else newSubscriberLoop ys (insertName acc (trimCustom y))) = _
    rw [if_neg (by simp [h y (List.mem_cons_self y ys)])]
    exact ih (insertName acc (trimCustom y)) (fun n hn => h n (List.mem_cons_of_mem y hn))

/-- C3 corrected: the code treats the empty string as a wildcard token too
(the claim omits it).  When the filter list is empty, or any name is empty,
`"*"`, or case-insensitively `"all"`, the stored set is empty and `Handle`
sends every event on the channel and returns true; otherwise the stored set
is (as a set) the names with a leading `CUSTOM ` marker stripped, and
`Handle` sends the event and returns true exactly when the event's resolved
name is a member, returning false without touching the channel otherwise. -/
theorem newSubscriber_handle_spec (send : Nat) (events : List String) :
    ((events = [] ∨ ∃ n ∈ events, isWildcardName n = true) →
      (newSubscriber send events).Names = [] ∧
      ∀ e : Event, Subscriber.Handle (newSubscriber send events) e = (true, [e])) ∧
    ((events ≠ [] ∧ ∀ n ∈ events, isWildcardName n = false) →
      (∀ x, x ∈ (newSubscriber send events).Names ↔ x ∈ events.map trimCustom) ∧
      (∀ e : Event, Subscriber.Handle (newSubscriber send events) e =
        if Event.Name e ∈ events.map trimCustom then (true, [e])
        else (false, []))) := by
  constructor
  · intro hw
    have hnames : (newSubscriber send events).Names = [] := by
      unfold newSubscriber
      by_cases he : events = []
      · rw [if_pos he]
      · rw [if_neg he]
        rcases hw with hw | hw
        · exact absurd hw he
        · rw [newSubscriberLoop_wildcard events [] hw]
    refine ⟨hnames, fun e => ?_⟩
    unfold Subscriber.Handle
    rw [if_pos (Or.inr hnames)]
  · intro ⟨hne, hclean⟩
    have hnames : (newSubscriber send events).Names =
        insertAll [] (events.map trimCustom) := by
      unfold newSubscriber
      rw [if_neg hne, newSubscriberLoop_clean events [] hclean]
    have hmem : ∀ x, x ∈ (newSubscriber send events).Names ↔
        x ∈ events.map trimCustom := by
      intro x
      rw [hnames, mem_insertAll]
      simp
    refine ⟨hmem, fun e => ?_⟩
    have hnn : (newSubscriber send events).Names ≠ [] := by
      rw [hnames]
      rcases events with _ | ⟨y, ys⟩
      · exact absurd rfl hne
      · exact insertAll_cons_ne_nil [] (trimCustom y) (List.map trimCustom ys)
    unfold Subscriber.Handle
    by_cases hm : Event.Name e ∈ events.map trimCustom
    · rw [if_pos (Or.inl ((hmem (Event.Name e)).mpr hm)), if_pos hm]
    · rw [if_neg ?_, if_neg hm]
      rintro (hx | hx)
      · exact hm ((hmem (Event.Name e)).mp hx)
      · exact hnn hx

/-- C3 counterexample: the filter list `[""]` is nonempty, contains neither
`"*"` nor a case-insensitive `"all"`, yet the code stores the empty
(match-all) set — not the set containing the stripped name `""` — and
`Handle` sends an event named `HEARTBEAT` and returns true, where the claim
as stated predicts false without a send. -/
theorem newSubscriber_empty_name_cex :
    ([""] : List String) ≠ [] ∧ ("" = "*") = False ∧ equalFold "" "all" = false ∧
    trimCustom "" = "" ∧
    (newSubscriber 0 [""]).Names = [] ∧
    Subscriber.Handle (newSubscriber 0 [""]) [("Event-Name", "HEARTBEAT")] =
      (true, [[("Event-Name", "HEARTBEAT")]]) := by
  decide

/-- Witness for C3 (amended): the spec's own examples — a `[""]`-free check:
the subscriber with filter `CUSTOM conference::maintenance` matches the event
whose subclass resolves to `conference::maintenance` and not the `HEARTBEAT`
event; a subscriber with no filters matches both. -/
theorem newSubscriber_handle_spec_witness :
    Subscriber.Handle (newSubscriber 0 ["CUSTOM conference::maintenance"])
      [("Event-Name", "CUSTOM"), ("Event-Subclass", "conference::maintenance")] =
      (true, [[("Event-Name", "CUSTOM"),
        ("Event-Subclass", "conference::maintenance")]]) ∧
    Subscriber.Handle (newSubscriber 0 ["CUSTOM conference::maintenance"])
      [("Event-Name", "HEARTBEAT")] = (false, []) ∧
    Subscriber.Handle (newSubscriber 0 []) [("Event-Name", "HEARTBEAT")] =
      (true, [[("Event-Name", "HEARTBEAT")]]) := by
  have h := (newSubscriber_handle_spec 0 ["CUSTOM conference::maintenance"]).2
    (by constructor
        · decide
        · decide)
  have hall := (newSubscriber_handle_spec 0 []).1 (Or.inl rfl)
  refine ⟨?_, ?_, ?_⟩
  · rw [h.2 [("Event-Name", "CUSTOM"), ("Event-Subclass", "conference::maintenance")]]
    decide
  · rw [h.2 [("Event-Name", "HEARTBEAT")]]
    decide
  · exact hall.2 [("Event-Name", "HEARTBEAT")]

/-! ## Claim C4: the aggregate subscription command -/

theorem collectEvents_wildcard (subscribers : List Subscriber) :
    ∀ acc, (∃ s ∈ subscribers, s.Names = []) →
      collectEvents subscribers acc = none := by
  induction subscribers with
  | nil => intro acc h; simp at h
  | cons t ts ih =>
    intro acc ⟨s, hs, hw⟩
    show (if t.Names = [] then none else collectEvents ts (insertAll acc t.Names)) = none
    by_cases ht : t.Names = []
    · rw [if_pos ht]
    · rw [if_neg ht]
      rcases List.mem_cons.mp hs with hst | hst
      · exact absurd (hst ▸ hw) ht
      · exact ih _ ⟨s, hst, hw⟩

theorem collectEvents_clean (subscribers : List Subscriber) :
    ∀ acc, (∀ s ∈ subscribers, s.Names ≠ []) →
      collectEvents subscribers acc =
        some (subscribers.foldl (fun a s => insertAll a s.Names) acc) := by
  induction subscribers with
  | nil => intro acc _; rfl
  | cons t ts ih =>
    intro acc h
    show (if t.Names = [] then none else collectEvents ts (insertAll acc t.Names)) = _
    rw [if_neg (h t (List.mem_cons_self t ts))]
    exact ih (insertAll acc t.Names) (fun s hs => h s (List.mem_cons_of_mem t hs))

theorem mem_unionFold (subscribers : List Subscriber) :
    ∀ (acc : List String) (x : String),
      x ∈ subscribers.foldl (fun a s => insertAll a s.Names) acc ↔
        x ∈ acc ∨ ∃ s ∈ subscribers, x ∈ s.Names := by
  induction subscribers with
  | nil => intro acc x; simp
  | cons t ts ih =>
    intro acc x
    show x ∈ ts.foldl (fun a s => insertAll a s.Names) (insertAll acc t.Names) ↔ _
    rw [ih (insertAll acc t.Names) x, mem_insertAll]
    simp only [List.exists_mem_cons_iff]
    tauto

theorem buildStep_foldl (events : List String) : ∀ b c : String,
    events.foldl buildStep (b, c) =
      (b ++ spaceJoin (events.filter (fun n => eventNames.contains n)),
       c ++ spaceJoin (events.filter (fun n => !(eventNames.contains n)))) := by
  induction events with
  | nil =>
    intro b c
    simp [spaceJoin, String.append_empty]
  | cons y ys ih =>
    intro b c
    show List.foldl buildStep (buildStep (b, c) y) ys = _
    by_cases hy : eventNames.contains y = true
    · have hstep : buildStep (b, c) y = (b ++ " " ++ y, c) := by
        unfold buildStep
        rw [if_pos hy]
      rw [hstep, ih]
      simp only [List.filter_cons, hy, Bool.not_true, if_pos, if_neg]
      simp [spaceJoin, String.append_assoc]
    · have hy' : eventNames.contains y = false := by
        cases h : eventNames.contains y
        · rfl
        · exact absurd h hy
      have hstep : buildStep (b, c) y = (b, c ++ " " ++ y) := by
        unfold buildStep
        rw [if_neg hy]
      rw [hstep, ih]
      simp only [List.filter_cons, hy', Bool.not_false]
      simp [spaceJoin, String.append_assoc]

theorem spaceJoin_cons_ne_empty (y : String) (ys : List String) :
    spaceJoin (y :: ys) ≠ "" := by
  intro h
  have h2 := congrArg String.data h
  simp [spaceJoin] at h2

/-- C4: the aggregate subscription command is the fixed all-events string
whenever some subscriber has an empty filter set; otherwise it is built from
the union of all subscribers' filter names, names in the built-in vocabulary
appended to the base command and names outside it appended space-separated
after exactly one trailing `CUSTOM` marker, with no marker when every name is
in the vocabulary. -/
theorem Monitor.subscribe_spec (subscribers : List Subscriber) :
    ((∃ s ∈ subscribers, s.Names = []) →
      Monitor.subscribe subscribers = "event plain ALL") ∧
    ((∀ s ∈ subscribers, s.Names ≠ []) →
      (∀ x, x ∈ unionNames subscribers ↔ ∃ s ∈ subscribers, x ∈ s.Names) ∧
      Monitor.subscribe subscribers =
        cmdSubscribe ++
          spaceJoin ((unionNames subscribers).filter
            (fun n => eventNames.contains n)) ++
          (if (unionNames subscribers).filter
              (fun n => !(eventNames.contains n)) = [] then ""
           else " CUSTOM" ++ spaceJoin ((unionNames subscribers).filter
             (fun n => !(eventNames.contains n))))) := by
  constructor
  · intro hw
    unfold Monitor.subscribe
    rw [collectEvents_wildcard subscribers [] hw]
    decide
  · intro hclean
    constructor
    · intro x
      unfold unionNames
      rw [mem_unionFold subscribers [] x]
      simp
    · unfold Monitor.subscribe
      rw [collectEvents_clean subscribers [] hclean]
      show buildCmd (unionNames subscribers) = _
      unfold buildCmd
      rw [buildStep_foldl]
      rcases hcust : (unionNames subscribers).filter
          (fun n => !(eventNames.contains n)) with _ | ⟨y, ys⟩
      · have : ("" : String) ++ spaceJoin ([] : List String) = "" := by decide
        simp only [this]
        rw [if_neg (by simp), if_pos trivial, String.append_empty]
      · have hne : ("" : String) ++ spaceJoin (y :: ys) ≠ "" := by
          rw [show ("" : String) ++ spaceJoin (y :: ys) = spaceJoin (y :: ys) from
            String.empty_append _]
          exact spaceJoin_cons_ne_empty y ys
        rw [if_pos hne, if_neg (by simp)]
        rw [String.empty_append]
        simp [String.append_assoc]

/-- Witness for C4: with subscribers filtering on `HEARTBEAT` (in the
vocabulary) and `my.custom.event` (not in it), the command is
`event plain HEARTBEAT CUSTOM my.custom.event`; adding a wildcard subscriber
turns the command into `event plain ALL`. -/
theorem Monitor.subscribe_spec_witness :
    Monitor.subscribe [⟨["HEARTBEAT"], 0⟩, ⟨["my.custom.event"], 1⟩] =
      "event plain HEARTBEAT CUSTOM my.custom.event" ∧
    Monitor.subscribe [⟨["HEARTBEAT"], 0⟩, ⟨[], 1⟩] = "event plain ALL" := by
  constructor
  · have h := (Monitor.subscribe_spec
      [⟨["HEARTBEAT"], 0⟩, ⟨["my.custom.event"], 1⟩]).2 (by decide)
    rw [h.2]
    decide
  · exact (Monitor.subscribe_spec [⟨["HEARTBEAT"], 0⟩, ⟨[], 1⟩]).1
      ⟨⟨[], 1⟩, by decide, rfl⟩

/-! ## Claim C9 (corrected): decoded events carry no synthetic body key -/

/-- C9 as stated is false: `parseEvent` returns exactly the unmarshalled JSON
members and never adds the reserved `_body` key, so for a successfully
decoded body that declares no `_body` member the `Body` accessor returns the
empty string, not the raw frame body. -/
theorem parseEvent_no_synthetic_body_cex :
    parseEvent "\x7b\"Event-Name\":\"X\"\x7d" = some [("Event-Name", "X")] ∧
    Event.Body [("Event-Name", "X")] = "" ∧
    ("\x7b\"Event-Name\":\"X\"\x7d" : String) ≠ "" := by
  decide

/-- C9 amended: for every frame body successfully decoded by the event
parser, the resulting event is exactly the mapping of the flat JSON object's
members — no synthetic body key is added — so the `Body` accessor returns the
value of the JSON `_body` member when one is present and the empty string
otherwise; on JSON decode failure no partial event is produced (the parser
returns an error and no event). -/
theorem parseEvent_members_only (body : String) :
    (∀ ev, parseEvent body = some ev →
      jsonUnmarshalObj body = some ev ∧
      Event.Body ev = Event.Get ev bodyKey ∧
      (ev.find? (fun p => p.1 == bodyKey) = none → Event.Body ev = "")) ∧
    (jsonUnmarshalObj body = none → parseEvent body = none) := by
  constructor
  · intro ev h
    refine ⟨h, rfl, ?_⟩
    intro hf
    simp [Event.Body, Event.Get, hf]
  · intro h
    show jsonUnmarshalObj body = none
    exact h

/-- Witness for C9 (amended): a body declaring an explicit `_body` member
decodes to exactly its two members, and `Body` reads that member; a
non-JSON body produces no event. -/
theorem parseEvent_members_only_witness :
    jsonUnmarshalObj "\x7b\"Event-Name\":\"HEARTBEAT\",\"_body\":\"raw\"\x7d" =
      some [("Event-Name", "HEARTBEAT"), ("_body", "raw")] ∧
    Event.Body [("Event-Name", "HEARTBEAT"), ("_body", "raw")] =
      Event.Get [("Event-Name", "HEARTBEAT"), ("_body", "raw")] bodyKey ∧
    parseEvent "not json" = none := by
  have h := (parseEvent_members_only
    "\x7b\"Event-Name\":\"HEARTBEAT\",\"_body\":\"raw\"\x7d").1
    [("Event-Name", "HEARTBEAT"), ("_body", "raw")] (by decide)
  exact ⟨h.1, h.2.1, (parseEvent_members_only "not json").2 (by decide)⟩

end Eslmon
